import Mathlib

/-!
Shallow embedding of the uptime-kuma multi-user OIDC/RBAC core:
the permission model (`server/permissions.js`), the OIDC socket handler
(login-code exchange, OIDC settings CRUD, user management) and the OIDC
router (pending auth sessions, callback flow).

JavaScript values that may be `undefined` are modelled as `Option`;
JavaScript truthiness of strings, numbers and booleans is made explicit
through the `truthy*`/`jsOr*` helpers.  Database rows are association
lists; `R.findOne` is `List.find?`, an `UPDATE`/`R.store` of a fetched
row is `updateFirst`, `R.trash` is `eraseFirstP`.
-/

/-- JS truthiness of a string-or-undefined value: `undefined` and `""` are falsy. -/
def truthyS (x : Option String) : Bool :=
  match x with
  | some s => s != ""
  | none => false

/-- JS truthiness of a number-or-undefined value: `undefined` and `0` are falsy. -/
def truthyN (x : Option Nat) : Bool :=
  match x with
  | some n => n != 0
  | none => false

/-- JS truthiness of a boolean-or-undefined value. -/
def truthyB (x : Option Bool) : Bool :=
  x == some true

/-- JS `x || d` for a string-or-undefined `x` with a string default. -/
def jsOrS (x : Option String) (d : String) : String :=
  if truthyS x then x.getD d else d

/-- JS `x || y` for two string-or-undefined values. -/
def jsOrOS (x y : Option String) : Option String :=
  if truthyS x then x else y

/-- JS `x || d` for an array-or-undefined value (arrays are always truthy). -/
def jsOrL (x : Option (List String)) (d : List String) : List String :=
  match x with
  | some l => l
  | none => d

/-- JS `x === true` for a boolean-or-undefined value. -/
def jsEqTrue (x : Option Bool) : Bool :=
  x == some true

/-- JS `x !== false` for a boolean-or-undefined value (`undefined !== false` is true). -/
def jsNeqFalse (x : Option Bool) : Bool :=
  x != some false

/-- Replace the first element satisfying `p` by its image under `f`
(models fetching one row with `R.findOne` and storing the mutated bean back). -/
def updateFirst (p : α → Bool) (f : α → α) : List α → List α
  | [] => []
  | x :: xs => if p x then f x :: xs else x :: updateFirst p f xs

/-- Remove the first element satisfying `p` (models `R.trash` of a fetched row). -/
def eraseFirstP (p : α → Bool) : List α → List α
  | [] => []
  | x :: xs => if p x then xs else x :: eraseFirstP p xs

/-! ## Permission model (`server/permissions.js`) -/

/-- The fixed read-only permission list of the `viewer` role (`PERMISSIONS.viewer`). -/
def viewerPerms : List String :=
  [ "monitor:read", "heartbeat:read", "notification:read", "status-page:read",
    "maintenance:read", "proxy:read", "docker-host:read", "remote-browser:read",
    "api-key:read", "tag:read", "cert-info:read" ]

/-- The `PERMISSIONS` role table: JS object lookup, `undefined` for unknown keys. -/
def PERMISSIONS (role : String) : Option (List String) :=
  if role = "admin" then some ["*"]
  else if role = "viewer" then some viewerPerms
  else none

/-- A user object as seen by `hasPermission`: only the `role` property matters,
and it may be absent. -/
structure JsUser where
  role : Option String
deriving DecidableEq, Repr

/-- `hasPermission(user, permission)` from `server/permissions.js`. -/
def hasPermission (user : Option JsUser) (permission : String) : Bool :=
  match user with
  | none => false
  | some u =>
    let role := jsOrS u.role "viewer"
    match PERMISSIONS role with
    | none => false
    | some perms =>
      if perms.contains "*" then true
      else perms.contains permission

/-- A socket context: `socket.userID` and `socket.userRole`, both set only after login. -/
structure SocketCtx where
  userID : Option Nat
  userRole : Option String
deriving DecidableEq, Repr

/-- `socketIsAdmin(socket)` from `server/permissions.js`. -/
def socketIsAdmin (sock : SocketCtx) : Bool :=
  sock.userRole == some "admin"

/-- `socketHasPermission(socket, permission)` from `server/permissions.js`. -/
def socketHasPermission (sock : SocketCtx) (permission : String) : Bool :=
  if !truthyN sock.userID then false
  else
    let role := jsOrS sock.userRole "viewer"
    match PERMISSIONS role with
    | none => false
    | some perms =>
      if perms.contains "*" then true
      else perms.contains permission

/-- Modelled from the spec: `checkLogin` is imported from `util-server`, which is
not among the analyzed sources; the spec says `requireLoggedIn(session)` fails with
`Unauthenticated` when no identity is bound to the connection.  Returns the thrown
message, or `none` on success. -/
def checkLoginErr (sock : SocketCtx) : Option String :=
  if truthyN sock.userID then none else some "You are not logged in."

/-- `checkAdmin(socket)` from `server/permissions.js`: throws when not logged in
or when the socket role is not `admin`.  Returns the thrown message, or `none`. -/
def checkAdminErr (sock : SocketCtx) : Option String :=
  if !truthyN sock.userID then some "You are not logged in."
  else if !socketIsAdmin sock then some "Permission denied. Admin access required."
  else none

/-- The `checkLogin(socket); checkAdmin(socket);` prelude shared by every
admin-only socket handler: the first failure wins. -/
def gateAdmin (sock : SocketCtx) : Option String :=
  match checkLoginErr sock with
  | some e => some e
  | none => checkAdminErr sock

/-! ## Claim C3 -/

/-- Claim C3 counterexample: a user object whose `role` property is missing is
given the `viewer` role by `hasPermission` (`user.role || "viewer"`), so it is
granted `monitor:read`; likewise a logged-in socket with no `userRole`.  The
claim that a missing role grants no permissions is therefore false. -/
theorem missing_role_grants_viewer_read :
    hasPermission (some { role := none }) "monitor:read" = true ∧
    socketHasPermission { userID := some 1, userRole := none } "monitor:read" = true := by
  constructor <;> rfl

/-- Claim C3 (amended): an unknown role that is actually present (a non-empty
string other than `admin` and `viewer`) grants no permissions, through
`hasPermission` as well as `socketHasPermission`; an absent user object and a
socket without `userID` also get no permissions; but a missing (or empty) role
falls back to `viewer` and behaves exactly like the `viewer` role. -/
theorem role_fail_closed_amended (r : String) (perm : String)
    (hr1 : r ≠ "admin") (hr2 : r ≠ "viewer") (hr3 : r ≠ "") :
    hasPermission (some { role := some r }) perm = false ∧
    (∀ uid, socketHasPermission { userID := uid, userRole := some r } perm = false) ∧
    hasPermission none perm = false ∧
    (∀ role, socketHasPermission { userID := none, userRole := role } perm = false) ∧
    hasPermission (some { role := none }) perm
      = hasPermission (some { role := some "viewer" }) perm := by
  refine ⟨?_, ?_, rfl, ?_, rfl⟩
  · simp only [hasPermission, jsOrS, truthyS, PERMISSIONS]
    simp [hr1, hr2, hr3]
  · intro uid
    simp only [socketHasPermission, jsOrS, truthyS, PERMISSIONS]
    split
    · rfl
    · simp [hr1, hr2, hr3]
  · intro role
    simp [socketHasPermission, truthyN]

/-- Witness for `role_fail_closed_amended` at the unknown role `"editor"`. -/
theorem role_fail_closed_amended_witness :
    hasPermission (some { role := some "editor" }) "monitor:read" = false ∧
    (∀ uid, socketHasPermission { userID := uid, userRole := some "editor" } "monitor:read" = false) ∧
    hasPermission none "monitor:read" = false ∧
    (∀ role, socketHasPermission { userID := none, userRole := role } "monitor:read" = false) ∧
    hasPermission (some { role := none }) "monitor:read"
      = hasPermission (some { role := some "viewer" }) "monitor:read" :=
  role_fail_closed_amended "editor" "monitor:read"
    (by decide) (by decide) (by decide)

/-! ## OIDC settings (`Settings` key-value store, socket handlers, router helper) -/

/-- The settings key-value store restricted to the seven `oidcEntra*` keys;
`none` models a key `Settings.get` resolves to `undefined` (never written). -/
structure SettingsStore where
  oidcEntraEnabled : Option Bool
  oidcEntraTenantId : Option String
  oidcEntraClientId : Option String
  oidcEntraClientSecret : Option String
  oidcEntraAllowedGroups : Option (List String)
  oidcEntraDefaultRole : Option String
  oidcEntraAutoCreateUsers : Option Bool
deriving DecidableEq, Repr

/-- The settings object the `getOidcSettings` socket handler sends back. -/
structure OidcSettingsView where
  oidcEntraEnabled : Bool
  oidcEntraTenantId : String
  oidcEntraClientId : String
  oidcEntraClientSecret : String
  oidcEntraAllowedGroups : List String
  oidcEntraDefaultRole : String
  oidcEntraAutoCreateUsers : Bool
deriving DecidableEq, Repr

/-- The `getOidcSettings` socket handler (admin only): masks a stored non-empty
client secret as `"********"` and applies the JS defaulting of each field. -/
def getOidcSettingsHandler (sock : SocketCtx) (st : SettingsStore) :
    Except String OidcSettingsView :=
  match gateAdmin sock with
  | some e => .error e
  | none => .ok
      { oidcEntraEnabled := jsEqTrue st.oidcEntraEnabled
        oidcEntraTenantId := jsOrS st.oidcEntraTenantId ""
        oidcEntraClientId := jsOrS st.oidcEntraClientId ""
        oidcEntraClientSecret := if truthyS st.oidcEntraClientSecret then "********" else ""
        oidcEntraAllowedGroups := jsOrL st.oidcEntraAllowedGroups []
        oidcEntraDefaultRole := jsOrS st.oidcEntraDefaultRole "viewer"
        oidcEntraAutoCreateUsers := jsNeqFalse st.oidcEntraAutoCreateUsers }

/-- The `oidcEntraAllowedGroups` field of a save payload: `undefined`, a
comma-separated string, or an array of group ids. -/
inductive GroupsInput where
  | undef : GroupsInput
  | str : String → GroupsInput
  | arr : List String → GroupsInput
deriving DecidableEq, Repr

/-- The payload of a `saveOidcSettings` request; absent properties are `none`. -/
structure OidcSavePayload where
  oidcEntraEnabled : Option Bool
  oidcEntraTenantId : Option String
  oidcEntraClientId : Option String
  oidcEntraClientSecret : Option String
  oidcEntraAllowedGroups : GroupsInput
  oidcEntraDefaultRole : Option String
  oidcEntraAutoCreateUsers : Option Bool
deriving DecidableEq, Repr

/-- The allowed-groups normalization done by `saveOidcSettings`: a string is
split on commas, trimmed and cleaned of empty entries; then `|| []`. -/
def savedAllowedGroups (g : GroupsInput) : List String :=
  let parsed : Option (List String) :=
    match g with
    | .undef => none
    | .str s => some (((s.splitOn ",").map String.trim).filter (fun x => x != ""))
    | .arr l => some l
  jsOrL parsed []

/-- The `saveOidcSettings` socket handler (admin only): validates that enabling
requires a tenant id, a client id and a resolvable secret, then persists each
key; the stored secret is only overwritten by a truthy payload secret that is
not the `"********"` placeholder. -/
def saveOidcSettingsHandler (sock : SocketCtx) (data : OidcSavePayload)
    (st : SettingsStore) : Except String SettingsStore :=
  match gateAdmin sock with
  | some e => .error e
  | none =>
    if truthyB data.oidcEntraEnabled ∧
        (¬ truthyS data.oidcEntraTenantId ∨ ¬ truthyS data.oidcEntraClientId) then
      .error "Tenant ID and Client ID are required when enabling Entra ID SSO"
    else if truthyB data.oidcEntraEnabled ∧
        ¬ truthyS st.oidcEntraClientSecret ∧ ¬ truthyS data.oidcEntraClientSecret then
      .error "Client Secret is required when enabling Entra ID SSO"
    else
      .ok
        { oidcEntraEnabled := some (jsEqTrue data.oidcEntraEnabled)
          oidcEntraTenantId := some (jsOrS data.oidcEntraTenantId "")
          oidcEntraClientId := some (jsOrS data.oidcEntraClientId "")
          oidcEntraClientSecret :=
            if truthyS data.oidcEntraClientSecret ∧ data.oidcEntraClientSecret ≠ some "********"
            then data.oidcEntraClientSecret
            else st.oidcEntraClientSecret
          oidcEntraAllowedGroups := some (savedAllowedGroups data.oidcEntraAllowedGroups)
          oidcEntraDefaultRole := some (jsOrS data.oidcEntraDefaultRole "viewer")
          oidcEntraAutoCreateUsers := some (jsNeqFalse data.oidcEntraAutoCreateUsers) }

/-- The resolved settings object built by the router helper `getOidcSettings`
(the async function at the top of the OIDC router, not the socket handler). -/
structure RouterOidcSettings where
  enabled : Bool
  tenantId : Option String
  clientId : Option String
  clientSecret : Option String
  allowedGroups : List String
  defaultRole : String
  autoCreateUsers : Bool
deriving DecidableEq, Repr

/-- The router helper `getOidcSettings()`: reads the seven keys and applies the
same defaulting expressions as the source (`=== true`, `|| []`, `|| "viewer"`,
`!== false`); tenant id, client id and secret are passed through raw. -/
def getOidcSettingsRouter (st : SettingsStore) : RouterOidcSettings :=
  { enabled := jsEqTrue st.oidcEntraEnabled
    tenantId := st.oidcEntraTenantId
    clientId := st.oidcEntraClientId
    clientSecret := st.oidcEntraClientSecret
    allowedGroups := jsOrL st.oidcEntraAllowedGroups []
    defaultRole := jsOrS st.oidcEntraDefaultRole "viewer"
    autoCreateUsers := jsNeqFalse st.oidcEntraAutoCreateUsers }

/-! ## Claims C6 and C9 -/

/-- `x || ""` applied to an already-`|| ""`-normalized stored string gives the
normalized string back. -/
theorem jsOrS_restore_empty (x : Option String) :
    jsOrS (some (jsOrS x "")) "" = jsOrS x "" := by
  cases x with
  | none => rfl
  | some s =>
    by_cases h : s = ""
    · subst h; rfl
    · simp [jsOrS, truthyS, h]

/-- `x || d` with a non-empty default `d` re-reads to itself. -/
theorem jsOrS_restore_default (x : Option String) (d : String) (hd : d ≠ "") :
    jsOrS (some (jsOrS x d)) d = jsOrS x d := by
  cases x with
  | none => simp [jsOrS, truthyS, hd]
  | some s =>
    by_cases h : s = ""
    · subst h; simp [jsOrS, truthyS, hd]
    · simp [jsOrS, truthyS, h]

/-- Claim C6: after a successful `saveOidcSettings`, `getOidcSettings` returns
exactly the tenant id, client id, allowed groups, default role and
auto-create flag the save persisted; whenever the stored client secret is
non-empty the read returns the sentinel `"********"`; and a save whose payload
secret is the sentinel leaves the stored secret untouched. -/
theorem oidc_settings_roundtrip (sock : SocketCtx) (data : OidcSavePayload)
    (st st2 : SettingsStore)
    (hok : saveOidcSettingsHandler sock data st = .ok st2) :
    ∃ v, getOidcSettingsHandler sock st2 = .ok v
      ∧ v.oidcEntraTenantId = jsOrS data.oidcEntraTenantId ""
      ∧ v.oidcEntraClientId = jsOrS data.oidcEntraClientId ""
      ∧ v.oidcEntraAllowedGroups = savedAllowedGroups data.oidcEntraAllowedGroups
      ∧ v.oidcEntraDefaultRole = jsOrS data.oidcEntraDefaultRole "viewer"
      ∧ v.oidcEntraAutoCreateUsers = jsNeqFalse data.oidcEntraAutoCreateUsers
      ∧ (data.oidcEntraClientSecret = some "********" →
          st2.oidcEntraClientSecret = st.oidcEntraClientSecret)
      ∧ (∀ sec, st2.oidcEntraClientSecret = some sec → sec ≠ "" →
          v.oidcEntraClientSecret = "********") := by
  unfold saveOidcSettingsHandler at hok
  cases hg : gateAdmin sock with
  | some e => rw [hg] at hok; exact absurd hok (by simp)
  | none =>
    rw [hg] at hok
    by_cases h1 : truthyB data.oidcEntraEnabled = true ∧
        (¬ truthyS data.oidcEntraTenantId = true ∨ ¬ truthyS data.oidcEntraClientId = true)
    · rw [if_pos h1] at hok; exact absurd hok (by simp)
    · rw [if_neg h1] at hok
      by_cases h2 : truthyB data.oidcEntraEnabled = true ∧
          ¬ truthyS st.oidcEntraClientSecret = true ∧ ¬ truthyS data.oidcEntraClientSecret = true
      · rw [if_pos h2] at hok; exact absurd hok (by simp)
      · rw [if_neg h2] at hok
        simp only [Except.ok.injEq] at hok
        subst hok
        unfold getOidcSettingsHandler
        rw [hg]
        refine ⟨_, rfl, ?_, ?_, rfl, ?_, ?_, ?_, ?_⟩
        · exact jsOrS_restore_empty _
        · exact jsOrS_restore_empty _
        · exact jsOrS_restore_default _ _ (by decide)
        · show jsNeqFalse (some (jsNeqFalse data.oidcEntraAutoCreateUsers))
            = jsNeqFalse data.oidcEntraAutoCreateUsers
          cases h : jsNeqFalse data.oidcEntraAutoCreateUsers <;> rfl
        · intro hs
          show (if truthyS data.oidcEntraClientSecret = true ∧
              data.oidcEntraClientSecret ≠ some "********"
            then data.oidcEntraClientSecret else st.oidcEntraClientSecret)
            = st.oidcEntraClientSecret
          rw [hs]
          simp
        · intro sec hsec hne
          show (if truthyS (if truthyS data.oidcEntraClientSecret = true ∧
                data.oidcEntraClientSecret ≠ some "********"
              then data.oidcEntraClientSecret else st.oidcEntraClientSecret) = true
            then "********" else "") = "********"
          have hsec2 : (if truthyS data.oidcEntraClientSecret = true ∧
                data.oidcEntraClientSecret ≠ some "********"
              then data.oidcEntraClientSecret else st.oidcEntraClientSecret) = some sec := hsec
          rw [hsec2]
          simp [truthyS, hne]

/-- Witness for `oidc_settings_roundtrip`: a concrete admin socket saving a
concrete payload over an empty store. -/
theorem oidc_settings_roundtrip_witness :
    ∃ v, getOidcSettingsHandler ⟨some 1, some "admin"⟩
        ⟨some true, some "t1", some "c1", some "s1", some ["G1"], some "admin", some false⟩ = .ok v
      ∧ v.oidcEntraTenantId = jsOrS (some "t1") ""
      ∧ v.oidcEntraClientId = jsOrS (some "c1") ""
      ∧ v.oidcEntraAllowedGroups = savedAllowedGroups (.arr ["G1"])
      ∧ v.oidcEntraDefaultRole = jsOrS (some "admin") "viewer"
      ∧ v.oidcEntraAutoCreateUsers = jsNeqFalse (some false)
      ∧ (some "s1" = some "********" →
          SettingsStore.oidcEntraClientSecret
            ⟨some true, some "t1", some "c1", some "s1", some ["G1"], some "admin", some false⟩
          = SettingsStore.oidcEntraClientSecret ⟨none, none, none, none, none, none, none⟩)
      ∧ (∀ sec, SettingsStore.oidcEntraClientSecret
            ⟨some true, some "t1", some "c1", some "s1", some ["G1"], some "admin", some false⟩
          = some sec → sec ≠ "" → v.oidcEntraClientSecret = "********") :=
  oidc_settings_roundtrip ⟨some 1, some "admin"⟩
    ⟨some true, some "t1", some "c1", some "s1", .arr ["G1"], some "admin", some false⟩
    ⟨none, none, none, none, none, none, none⟩
    ⟨some true, some "t1", some "c1", some "s1", some ["G1"], some "admin", some false⟩
    (by rfl)

/-- Claim C9: on a store where the allowed-groups, default-role and
auto-create keys were never written, the router settings helper and the
`getOidcSettings` socket handler resolve the same defaults: `enabled` is true
exactly when the stored value is the boolean `true`, allowed groups default to
`[]`, the default role to `"viewer"`, and auto-create to `true`. -/
theorem oidc_default_settings (sock : SocketCtx) (st : SettingsStore)
    (hgate : gateAdmin sock = none)
    (hg : st.oidcEntraAllowedGroups = none)
    (hr : st.oidcEntraDefaultRole = none)
    (ha : st.oidcEntraAutoCreateUsers = none) :
    ((getOidcSettingsRouter st).enabled = true ↔ st.oidcEntraEnabled = some true)
    ∧ (getOidcSettingsRouter st).allowedGroups = []
    ∧ (getOidcSettingsRouter st).defaultRole = "viewer"
    ∧ (getOidcSettingsRouter st).autoCreateUsers = true
    ∧ ∃ v, getOidcSettingsHandler sock st = .ok v
        ∧ (v.oidcEntraEnabled = true ↔ st.oidcEntraEnabled = some true)
        ∧ v.oidcEntraAllowedGroups = []
        ∧ v.oidcEntraDefaultRole = "viewer"
        ∧ v.oidcEntraAutoCreateUsers = true := by
  unfold getOidcSettingsHandler
  rw [hgate]
  refine ⟨?_, ?_, ?_, ?_, _, rfl, ?_, ?_, ?_, ?_⟩ <;>
    simp [getOidcSettingsRouter, jsEqTrue, jsOrL, jsOrS, jsNeqFalse, truthyS, hg, hr, ha]

/-- Witness for `oidc_default_settings`: an admin socket reading a store where
no OIDC key was ever written. -/
theorem oidc_default_settings_witness :
    ((getOidcSettingsRouter ⟨none, none, none, none, none, none, none⟩).enabled = true ↔
        SettingsStore.oidcEntraEnabled ⟨none, none, none, none, none, none, none⟩ = some true)
    ∧ (getOidcSettingsRouter ⟨none, none, none, none, none, none, none⟩).allowedGroups = []
    ∧ (getOidcSettingsRouter ⟨none, none, none, none, none, none, none⟩).defaultRole = "viewer"
    ∧ (getOidcSettingsRouter ⟨none, none, none, none, none, none, none⟩).autoCreateUsers = true
    ∧ ∃ v, getOidcSettingsHandler ⟨some 1, some "admin"⟩ ⟨none, none, none, none, none, none, none⟩ = .ok v
        ∧ (v.oidcEntraEnabled = true ↔
            SettingsStore.oidcEntraEnabled ⟨none, none, none, none, none, none, none⟩ = some true)
        ∧ v.oidcEntraAllowedGroups = []
        ∧ v.oidcEntraDefaultRole = "viewer"
        ∧ v.oidcEntraAutoCreateUsers = true :=
  oidc_default_settings ⟨some 1, some "admin"⟩ ⟨none, none, none, none, none, none, none⟩
    (by decide) rfl rfl rfl

/-! ## User table and user-management handlers -/

/-- A row of the `user` table (the columns this core touches). -/
structure UserRow where
  id : Nat
  username : String
  email : Option String
  display_name : Option String
  role : Option String
  entra_oid : Option String
  password : Option String
  active : Bool
  last_login : Option Int
deriving DecidableEq, Repr

/-- A row of the `oidc_login_code` table. -/
structure LoginCodeRow where
  code : String
  user_id : Nat
  expires_at : Int
  used : Bool
deriving DecidableEq, Repr

/-- The number of active users whose `role` column is `admin`. -/
def activeAdmins (users : List UserRow) : Nat :=
  users.countP (fun u => u.role == some "admin" && u.active)

/-- The `setUserRole` socket handler (admin only): validates the role, refuses
to demote the last active admin (`R.count` excluding the target id), then
updates the fetched row. -/
def setUserRole (sock : SocketCtx) (userId : Nat) (role : String)
    (users : List UserRow) : Except String (List UserRow) :=
  match gateAdmin sock with
  | some e => .error e
  | none =>
    if userId == 0 || role == "" then
      .error "User ID and role are required"
    else if !(role == "admin" || role == "viewer") then
      .error "Invalid role. Must be \x27admin\x27 or \x27viewer\x27"
    else if role != "admin" &&
        (users.countP (fun u => u.role == some "admin" && u.active && u.id != userId) == 0) then
      .error "Cannot remove the last admin. At least one admin must remain."
    else
      match users.find? (fun u => u.id == userId && u.active) with
      | none => .error "User not found"
      | some _ =>
        .ok (updateFirst (fun u => u.id == userId && u.active)
              (fun u => { u with role := some role }) users)

/-- The `deleteUser` socket handler (admin only): refuses self-deletion and
deleting the last active admin, then soft-deletes the fetched row
(`active = false`) and purges that user's login codes. -/
def deleteUser (sock : SocketCtx) (userId : Nat)
    (users : List UserRow) (codes : List LoginCodeRow) :
    Except String (List UserRow × List LoginCodeRow) :=
  match gateAdmin sock with
  | some e => .error e
  | none =>
    if userId == 0 then
      .error "User ID is required"
    else if sock.userID == some userId then
      .error "You cannot delete your own account"
    else
      match users.find? (fun u => u.id == userId && u.active) with
      | none => .error "User not found"
      | some user =>
        if user.role == some "admin" &&
            (users.countP (fun u => u.role == some "admin" && u.active && u.id != userId) == 0) then
          .error "Cannot delete the last admin. At least one admin must remain."
        else
          .ok (updateFirst (fun u => u.id == userId && u.active)
                 (fun u => { u with active := false }) users,
               codes.filter (fun lc => lc.user_id != userId))

/-- One user-management operation of the socket channel. -/
inductive UserMgmtOp where
  | setRole : Nat → String → UserMgmtOp
  | delUser : Nat → UserMgmtOp
deriving DecidableEq, Repr

/-- Run one user-management operation; a failed operation throws before any
`R.store`, so it leaves the tables unchanged. -/
def stepUserOp (sock : SocketCtx) (s : List UserRow × List LoginCodeRow)
    (op : UserMgmtOp) : List UserRow × List LoginCodeRow :=
  match op with
  | .setRole userId role =>
    match setUserRole sock userId role s.1 with
    | .ok users2 => (users2, s.2)
    | .error _ => s
  | .delUser userId =>
    match deleteUser sock userId s.1 s.2 with
    | .ok s2 => s2
    | .error _ => s

/-! ### List lemmas about `updateFirst` and `countP` -/

/-- The image of the row `find?` fetched is a member of the updated list. -/
theorem mem_updateFirst_of_find (p : α → Bool) (f : α → α) (l : List α) (a : α)
    (h : l.find? p = some a) : f a ∈ updateFirst p f l := by
  induction l with
  | nil => simp [List.find?] at h
  | cons x xs ih =>
    by_cases hx : p x
    · rw [List.find?_cons_of_pos _ hx] at h
      simp only [Option.some.injEq] at h
      subst h
      simp [updateFirst, hx]
    · rw [List.find?_cons_of_neg _ hx] at h
      simp only [updateFirst, if_neg hx]
      exact List.mem_cons_of_mem _ (ih h)

/-- If every element counted by `q` fails `p`, updating the first `p`-element
keeps the `q`-count positive. -/
theorem countP_pos_updateFirst_of_disjoint (p q : α → Bool) (f : α → α)
    (l : List α) (hdisj : ∀ x, q x = true → p x = false)
    (hpos : 0 < l.countP q) : 0 < (updateFirst p f l).countP q := by
  induction l with
  | nil => simp at hpos
  | cons x xs ih =>
    by_cases hx : p x
    · have hqx : q x = false := by
        by_cases hq : q x
        · rw [hdisj x hq] at hx; exact absurd hx (by simp)
        · simpa using hq
      simp only [updateFirst, if_pos hx]
      rw [List.countP_cons, hqx] at hpos
      simp only [Bool.false_eq_true, if_false, Nat.add_zero] at hpos
      rw [List.countP_cons]
      omega
    · simp only [updateFirst, if_neg hx]
      rw [List.countP_cons] at hpos ⊢
      by_cases hq : q x
      · simp [hq]
      · have : (if q x = true then 1 else 0) = 0 := by simp [hq]
        rw [this] at hpos ⊢
        simp only [Nat.add_zero] at hpos ⊢
        exact ih hpos

/-- If the fetched row itself is not counted by `q`, updating it keeps the
`q`-count positive. -/
theorem countP_pos_updateFirst_of_target_not_counted (p q : α → Bool) (f : α → α)
    (l : List α) (a : α) (hfind : l.find? p = some a) (hqa : q a = false)
    (hpos : 0 < l.countP q) : 0 < (updateFirst p f l).countP q := by
  induction l with
  | nil => simp [List.find?] at hfind
  | cons x xs ih =>
    by_cases hx : p x
    · rw [List.find?_cons_of_pos _ hx] at hfind
      simp only [Option.some.injEq] at hfind
      subst hfind
      simp only [updateFirst, if_pos hx]
      rw [List.countP_cons, hqa] at hpos
      simp only [Bool.false_eq_true, if_false, Nat.add_zero] at hpos
      rw [List.countP_cons]
      omega
    · rw [List.find?_cons_of_neg _ hx] at hfind
      simp only [updateFirst, if_neg hx]
      rw [List.countP_cons] at hpos ⊢
      by_cases hq : q x
      · simp [hq]
      · have : (if q x = true then 1 else 0) = 0 := by simp [hq]
        rw [this] at hpos ⊢
        simp only [Nat.add_zero] at hpos ⊢
        exact ih hfind hpos

/-! ## Claim C1 -/

/-- A successful `setUserRole` keeps at least one active admin. -/
theorem setUserRole_preserves_admin (sock : SocketCtx) (userId : Nat) (role : String)
    (users users2 : List UserRow)
    (hok : setUserRole sock userId role users = .ok users2) :
    0 < activeAdmins users2 := by
  unfold setUserRole at hok
  cases hg : gateAdmin sock with
  | some e => rw [hg] at hok; exact absurd hok (by simp)
  | none =>
    rw [hg] at hok
    by_cases hb1 : (userId == 0 || role == "") = true
    · rw [if_pos hb1] at hok; exact absurd hok (by simp)
    · rw [if_neg hb1] at hok
      by_cases hb2 : (!(role == "admin" || role == "viewer")) = true
      · rw [if_pos hb2] at hok; exact absurd hok (by simp)
      · rw [if_neg hb2] at hok
        by_cases hb3 : (role != "admin" &&
            (users.countP (fun u => u.role == some "admin" && u.active && u.id != userId) == 0)) = true
        · rw [if_pos hb3] at hok; exact absurd hok (by simp)
        · rw [if_neg hb3] at hok
          cases hfind : users.find? (fun u => u.id == userId && u.active) with
          | none => rw [hfind] at hok; exact absurd hok (by simp)
          | some u =>
            rw [hfind] at hok
            simp only [Except.ok.injEq] at hok
            subst hok
            by_cases hrole : role = "admin"
            · subst hrole
              have hu := List.find?_some hfind
              simp only [Bool.and_eq_true] at hu
              refine List.countP_pos_iff.mpr ?_
              refine ⟨{ u with role := some "admin" },
                mem_updateFirst_of_find _ _ _ _ hfind, ?_⟩
              simp [hu.2]
            · have hcnt : users.countP
                  (fun u => u.role == some "admin" && u.active && u.id != userId) ≠ 0 := by
                intro h0
                exact hb3 (by simp [hrole, h0])
              have hpos : 0 < users.countP
                  (fun u => u.role == some "admin" && u.active && u.id != userId) :=
                Nat.pos_of_ne_zero hcnt
              have hpos2 : 0 < (updateFirst (fun u => u.id == userId && u.active)
                  (fun u => { u with role := some role }) users).countP
                  (fun u => u.role == some "admin" && u.active && u.id != userId) := by
                refine countP_pos_updateFirst_of_disjoint _ _ _ _ ?_ hpos
                intro x hx
                simp only [Bool.and_eq_true, bne_iff_ne, ne_eq] at hx
                have hid : (x.id == userId) = false := by simpa using hx.2
                simp [hid]
              calc 0 < _ := hpos2
                _ ≤ activeAdmins (updateFirst (fun u => u.id == userId && u.active)
                      (fun u => { u with role := some role }) users) := by
                  refine List.countP_mono_left ?_
                  intro x _ hx
                  simp only [Bool.and_eq_true] at hx
                  simp [hx.1.1, hx.1.2]

/-- A successful `deleteUser` keeps at least one active admin. -/
theorem deleteUser_preserves_admin (sock : SocketCtx) (userId : Nat)
    (users users2 : List UserRow) (codes codes2 : List LoginCodeRow)
    (hok : deleteUser sock userId users codes = .ok (users2, codes2))
    (hinv : 0 < activeAdmins users) : 0 < activeAdmins users2 := by
  unfold deleteUser at hok
  cases hg : gateAdmin sock with
  | some e => rw [hg] at hok; exact absurd hok (by simp)
  | none =>
    rw [hg] at hok
    by_cases hb1 : (userId == 0) = true
    · rw [if_pos hb1] at hok; exact absurd hok (by simp)
    · rw [if_neg hb1] at hok
      by_cases hb2 : (sock.userID == some userId) = true
      · rw [if_pos hb2] at hok; exact absurd hok (by simp)
      · rw [if_neg hb2] at hok
        cases hfind : users.find? (fun u => u.id == userId && u.active) with
        | none => rw [hfind] at hok; exact absurd hok (by simp)
        | some u =>
          rw [hfind] at hok
          dsimp only at hok
          by_cases hb3 : (u.role == some "admin" &&
              (users.countP (fun u => u.role == some "admin" && u.active && u.id != userId) == 0)) = true
          · rw [if_pos hb3] at hok; exact absurd hok (by simp)
          · rw [if_neg hb3] at hok
            simp only [Except.ok.injEq, Prod.mk.injEq] at hok
            obtain ⟨hok1, -⟩ := hok
            subst hok1
            by_cases hrole : u.role = some "admin"
            · have hcnt : users.countP
                  (fun u => u.role == some "admin" && u.active && u.id != userId) ≠ 0 := by
                intro h0
                exact hb3 (by simp [hrole, h0])
              have hpos2 : 0 < (updateFirst (fun u => u.id == userId && u.active)
                  (fun u => { u with active := false }) users).countP
                  (fun u => u.role == some "admin" && u.active && u.id != userId) := by
                refine countP_pos_updateFirst_of_disjoint _ _ _ _ ?_ (Nat.pos_of_ne_zero hcnt)
                intro x hx
                simp only [Bool.and_eq_true, bne_iff_ne, ne_eq] at hx
                have hid : (x.id == userId) = false := by simpa using hx.2
                simp [hid]
              calc 0 < _ := hpos2
                _ ≤ activeAdmins (updateFirst (fun u => u.id == userId && u.active)
                      (fun u => { u with active := false }) users) := by
                  refine List.countP_mono_left ?_
                  intro x _ hx
                  simp only [Bool.and_eq_true] at hx
                  simp [hx.1.1, hx.1.2]
            · refine countP_pos_updateFirst_of_target_not_counted _ _ _ _ u hfind ?_ hinv
              simp [hrole]

/-- One channel step preserves the active-admin lower bound. -/
theorem stepUserOp_preserves_admin (sock : SocketCtx)
    (s : List UserRow × List LoginCodeRow) (op : UserMgmtOp)
    (hinv : 0 < activeAdmins s.1) : 0 < activeAdmins (stepUserOp sock s op).1 := by
  cases op with
  | setRole userId role =>
    simp only [stepUserOp]
    cases h : setUserRole sock userId role s.1 with
    | ok users2 => exact setUserRole_preserves_admin sock userId role s.1 users2 h
    | error e => exact hinv
  | delUser userId =>
    simp only [stepUserOp]
    cases h : deleteUser sock userId s.1 s.2 with
    | ok s2 => exact deleteUser_preserves_admin sock userId s.1 s2.1 s.2 s2.2 (by rw [h]) hinv
    | error e => exact hinv

/-- Claim C1: starting from a table with at least one active admin, the
invariant `activeAdmins >= 1` holds after every prefix of a sequence of
user-management operations (failed operations change nothing); moreover a
`setUserRole` that would demote the last active admin and a `deleteUser`
that would remove the last active admin both fail with an error. -/
theorem last_admin_invariant (sock : SocketCtx) (ops : List UserMgmtOp)
    (users : List UserRow) (codes : List LoginCodeRow)
    (hinv : 1 ≤ activeAdmins users) :
    1 ≤ activeAdmins (ops.foldl (stepUserOp sock) (users, codes)).1
    ∧ (∀ userId role, role ≠ "admin" →
        users.countP (fun u => u.role == some "admin" && u.active && u.id != userId) = 0 →
        ∃ e, setUserRole sock userId role users = .error e)
    ∧ (∀ userId u, users.find? (fun v => v.id == userId && v.active) = some u →
        u.role = some "admin" →
        users.countP (fun v => v.role == some "admin" && v.active && v.id != userId) = 0 →
        ∃ e, deleteUser sock userId users codes = .error e) := by
  refine ⟨?_, ?_, ?_⟩
  · have main : ∀ (l : List UserMgmtOp) (s : List UserRow × List LoginCodeRow),
        0 < activeAdmins s.1 → 0 < activeAdmins (l.foldl (stepUserOp sock) s).1 := by
      intro l
      induction l with
      | nil => intro s h; exact h
      | cons op rest ih =>
        intro s h
        exact ih _ (stepUserOp_preserves_admin sock s op h)
    exact main ops (users, codes) hinv
  · intro userId role hrole hcount
    unfold setUserRole
    cases hg : gateAdmin sock with
    | some e => exact ⟨e, rfl⟩
    | none =>
      by_cases hb1 : (userId == 0 || role == "") = true
      · rw [if_pos hb1]; exact ⟨_, rfl⟩
      · rw [if_neg hb1]
        by_cases hb2 : (!(role == "admin" || role == "viewer")) = true
        · rw [if_pos hb2]; exact ⟨_, rfl⟩
        · rw [if_neg hb2]
          have hcond : (role != "admin" &&
              (users.countP (fun u => u.role == some "admin" && u.active && u.id != userId) == 0)) = true := by
            simp [hrole, hcount]
          rw [if_pos hcond]
          exact ⟨_, rfl⟩
  · intro userId u hfind hrole hcount
    unfold deleteUser
    cases hg : gateAdmin sock with
    | some e => exact ⟨e, rfl⟩
    | none =>
      by_cases hb1 : (userId == 0) = true
      · rw [if_pos hb1]; exact ⟨_, rfl⟩
      · rw [if_neg hb1]
        by_cases hb2 : (sock.userID == some userId) = true
        · rw [if_pos hb2]; exact ⟨_, rfl⟩
        · rw [if_neg hb2]
          rw [hfind]
          dsimp only
          have hcond : (u.role == some "admin" &&
              (users.countP (fun u => u.role == some "admin" && u.active && u.id != userId) == 0)) = true := by
            simp [hrole, hcount]
          rw [if_pos hcond]
          exact ⟨_, rfl⟩

/-- Witness for `last_admin_invariant`: a single active admin, a demotion
attempt followed by a deletion attempt. -/
theorem last_admin_invariant_witness :
    1 ≤ activeAdmins (([UserMgmtOp.setRole 1 "viewer", UserMgmtOp.delUser 1].foldl
        (stepUserOp ⟨some 1, some "admin"⟩)
        ([⟨1, "root", none, none, some "admin", none, some "pw", true, none⟩], [])).1)
    ∧ (∀ userId role, role ≠ "admin" →
        ([(⟨1, "root", none, none, some "admin", none, some "pw", true, none⟩ : UserRow)]).countP
          (fun u => u.role == some "admin" && u.active && u.id != userId) = 0 →
        ∃ e, setUserRole ⟨some 1, some "admin"⟩ userId role
          [⟨1, "root", none, none, some "admin", none, some "pw", true, none⟩] = .error e)
    ∧ (∀ userId u,
        ([(⟨1, "root", none, none, some "admin", none, some "pw", true, none⟩ : UserRow)]).find?
          (fun v => v.id == userId && v.active) = some u →
        u.role = some "admin" →
        ([(⟨1, "root", none, none, some "admin", none, some "pw", true, none⟩ : UserRow)]).countP
          (fun v => v.role == some "admin" && v.active && v.id != userId) = 0 →
        ∃ e, deleteUser ⟨some 1, some "admin"⟩ userId
          [⟨1, "root", none, none, some "admin", none, some "pw", true, none⟩] [] = .error e) :=
  last_admin_invariant ⟨some 1, some "admin"⟩
    [UserMgmtOp.setRole 1 "viewer", UserMgmtOp.delUser 1]
    [⟨1, "root", none, none, some "admin", none, some "pw", true, none⟩] []
    (by decide)

/-! ## Login-code exchange (`loginByOidcCode` socket handler) -/

/-- The database state the login-code exchange touches. -/
structure DbState where
  users : List UserRow
  loginCodes : List LoginCodeRow
deriving DecidableEq, Repr

/-- The callback payload of `loginByOidcCode`: on success the socket is bound
to the user and a JWT is minted for it (the token content is outside this
core); on failure a message is returned. -/
inductive LoginResult where
  | ok : Nat → Option String → LoginResult
  | err : String → LoginResult
deriving DecidableEq, Repr

/-- Mark the fetched unused row with code `c` as used
(`loginCode.used = true; await R.store(loginCode)`). -/
def markUsed (c : String) (l : List LoginCodeRow) : List LoginCodeRow :=
  updateFirst (fun r => r.code == c && !r.used) (fun r => { r with used := true }) l

/-- Delete the fetched unused row with code `c` (`await R.trash(loginCode)`). -/
def trashUnused (c : String) (l : List LoginCodeRow) : List LoginCodeRow :=
  eraseFirstP (fun r => r.code == c && !r.used) l

/-- The `loginByOidcCode` socket handler: fetches the code row with
`code = ? AND used = 0`, deletes it when expired, otherwise marks it used and
then resolves the owning active user. -/
def loginByOidcCode (code : Option String) (now : Int) (st : DbState) :
    LoginResult × DbState :=
  if !truthyS code then (.err "Invalid login code", st)
  else
    let c := code.getD ""
    match st.loginCodes.find? (fun lc => lc.code == c && !lc.used) with
    | none => (.err "Invalid or expired login code", st)
    | some lc =>
      if lc.expires_at < now then
        (.err "Login code expired", { st with loginCodes := trashUnused c st.loginCodes })
      else
        match st.users.find? (fun u => u.id == lc.user_id && u.active) with
        | none =>
          (.err "User not found or inactive", { st with loginCodes := markUsed c st.loginCodes })
        | some u =>
          (.ok u.id u.role, { st with loginCodes := markUsed c st.loginCodes })

/-- After marking the first unused row with code `c` as used, no unused row
with code `c` remains (codes are unique in the table). -/
theorem find?_none_after_mark (c : String) (l : List LoginCodeRow)
    (huniq : l.countP (fun r => r.code == c) ≤ 1) :
    (markUsed c l).find? (fun r => r.code == c && !r.used) = none := by
  unfold markUsed
  induction l with
  | nil => rfl
  | cons x xs ih =>
    by_cases hx : (x.code == c && !x.used) = true
    · simp only [updateFirst, if_pos hx]
      have hxc : (x.code == c) = true := by
        simp only [Bool.and_eq_true] at hx
        exact hx.1
      have hz : xs.countP (fun r => r.code == c) = 0 := by
        rw [List.countP_cons, hxc] at huniq
        simp only [if_true] at huniq
        omega
      have hnone : xs.find? (fun r => r.code == c && !r.used) = none := by
        rw [List.find?_eq_none]
        intro r hr hpr
        have h1 : (r.code == c) = true := by
          simp only [Bool.and_eq_true] at hpr
          exact hpr.1
        have h2 := List.countP_eq_zero.mp hz r hr
        simp_all
      rw [List.find?_cons_of_neg, hnone]
      simp
    · simp only [updateFirst, if_neg hx]
      rw [List.find?_cons_of_neg]
      · refine ih ?_
        rw [List.countP_cons] at huniq
        omega
      · exact hx

/-- After deleting the first unused row with code `c`, no unused row with
code `c` remains (codes are unique in the table). -/
theorem find?_none_after_erase (c : String) (l : List LoginCodeRow)
    (huniq : l.countP (fun r => r.code == c) ≤ 1) :
    (trashUnused c l).find? (fun r => r.code == c && !r.used) = none := by
  unfold trashUnused
  induction l with
  | nil => rfl
  | cons x xs ih =>
    by_cases hx : (x.code == c && !x.used) = true
    · simp only [eraseFirstP, if_pos hx]
      have hxc : (x.code == c) = true := by
        simp only [Bool.and_eq_true] at hx
        exact hx.1
      have hz : xs.countP (fun r => r.code == c) = 0 := by
        rw [List.countP_cons, hxc] at huniq
        simp only [if_true] at huniq
        omega
      rw [List.find?_eq_none]
      intro r hr hpr
      have h1 : (r.code == c) = true := by
        simp only [Bool.and_eq_true] at hpr
        exact hpr.1
      have h2 := List.countP_eq_zero.mp hz r hr
      simp_all
    · simp only [eraseFirstP, if_neg hx]
      rw [List.find?_cons_of_neg]
      · refine ih ?_
        rw [List.countP_cons] at huniq
        omega
      · exact hx

/-! ## Claim C4 -/

/-- Claim C4: exchanging a login code that is found unused and unexpired
leaves no unused row for that code (the mark `used = true` is persisted and a
marked row remains), and when the owning user is missing or inactive the
caller gets the user-unavailable rejection while the code stays used, so a
replay of the same code is rejected as invalid. -/
theorem login_code_marked_used (c : String) (now : Int) (st : DbState)
    (lc : LoginCodeRow) (hc : c ≠ "")
    (hfind : st.loginCodes.find? (fun r => r.code == c && !r.used) = some lc)
    (hexp : ¬ lc.expires_at < now)
    (huniq : st.loginCodes.countP (fun r => r.code == c) ≤ 1) :
    ((loginByOidcCode (some c) now st).2).loginCodes.find?
        (fun r => r.code == c && !r.used) = none
    ∧ (∃ r ∈ ((loginByOidcCode (some c) now st).2).loginCodes,
         r.code = c ∧ r.used = true)
    ∧ (st.users.find? (fun u => u.id == lc.user_id && u.active) = none →
        (loginByOidcCode (some c) now st).1 = .err "User not found or inactive"
        ∧ loginByOidcCode (some c) now ((loginByOidcCode (some c) now st).2)
            = (.err "Invalid or expired login code",
               (loginByOidcCode (some c) now st).2)) := by
  have htr : truthyS (some c) = true := by simp [truthyS, hc]
  have hnone := find?_none_after_mark c st.loginCodes huniq
  have hcode := List.find?_some hfind
  simp only [Bool.and_eq_true, beq_iff_eq] at hcode
  have hmem : ({ lc with used := true } : LoginCodeRow) ∈ markUsed c st.loginCodes :=
    mem_updateFirst_of_find _ _ _ _ hfind
  cases huser : st.users.find? (fun u => u.id == lc.user_id && u.active) with
  | none =>
    have heval : loginByOidcCode (some c) now st
        = (.err "User not found or inactive",
           { st with loginCodes := markUsed c st.loginCodes }) := by
      simp [loginByOidcCode, htr, hfind, hexp, huser]
    rw [heval]
    refine ⟨hnone, ?_, ?_⟩
    · exact ⟨{ lc with used := true }, hmem, hcode.1, rfl⟩
    · intro _
      refine ⟨rfl, ?_⟩
      simp [loginByOidcCode, htr, hnone]
  | some u =>
    have heval : loginByOidcCode (some c) now st
        = (.ok u.id u.role,
           { st with loginCodes := markUsed c st.loginCodes }) := by
      simp [loginByOidcCode, htr, hfind, hexp, huser]
    rw [heval]
    refine ⟨hnone, ?_, ?_⟩
    · exact ⟨{ lc with used := true }, hmem, hcode.1, rfl⟩
    · intro h
      exact Option.noConfusion h

/-- Witness for `login_code_marked_used`: a fresh unexpired code whose owning
user row is missing. -/
theorem login_code_marked_used_witness :
    ((loginByOidcCode (some "c1") 50 ⟨[], [⟨"c1", 7, 100, false⟩]⟩).2).loginCodes.find?
        (fun r => r.code == "c1" && !r.used) = none
    ∧ (∃ r ∈ ((loginByOidcCode (some "c1") 50 ⟨[], [⟨"c1", 7, 100, false⟩]⟩).2).loginCodes,
         r.code = "c1" ∧ r.used = true)
    ∧ ((DbState.mk [] [⟨"c1", 7, 100, false⟩]).users.find?
          (fun u => u.id == LoginCodeRow.user_id ⟨"c1", 7, 100, false⟩ && u.active) = none →
        (loginByOidcCode (some "c1") 50 ⟨[], [⟨"c1", 7, 100, false⟩]⟩).1
            = .err "User not found or inactive"
        ∧ loginByOidcCode (some "c1") 50
              ((loginByOidcCode (some "c1") 50 ⟨[], [⟨"c1", 7, 100, false⟩]⟩).2)
            = (.err "Invalid or expired login code",
               (loginByOidcCode (some "c1") 50 ⟨[], [⟨"c1", 7, 100, false⟩]⟩).2)) :=
  login_code_marked_used "c1" 50 ⟨[], [⟨"c1", 7, 100, false⟩]⟩ ⟨"c1", 7, 100, false⟩
    (by decide) (by rfl) (by decide) (by decide)

/-! ## Claim C5 -/

/-- Claim C5 counterexample: an expired-but-unused code produces the message
`"Login code expired"`, while an unknown code produces
`"Invalid or expired login code"` — the two caller-visible outcomes differ,
so an expired code is distinguishable from an unknown (or used) one and the
claim that all three outcomes are identical is false. -/
theorem expired_code_distinct_message :
    (loginByOidcCode (some "c1") 100 ⟨[], [⟨"c1", 1, 0, false⟩]⟩).1
        = .err "Login code expired"
    ∧ (loginByOidcCode (some "c1") 100 ⟨[], []⟩).1
        = .err "Invalid or expired login code"
    ∧ ("Login code expired" : String) ≠ "Invalid or expired login code" :=
  ⟨rfl, rfl, by decide⟩

/-- Claim C5 (amended): a code that is already used is treated identically to
a code that never existed — same rejection `"Invalid or expired login code"`
and no state change — but an expired, still-unused code gets the distinct
message `"Login code expired"` and its row is deleted, after which it too
behaves like an unknown code. -/
theorem used_code_like_not_found (c : String) (now : Int) (st : DbState)
    (hc : c ≠ "") :
    (st.loginCodes.find? (fun r => r.code == c && !r.used) = none →
      loginByOidcCode (some c) now st = (.err "Invalid or expired login code", st))
    ∧ (∀ lc, st.loginCodes.find? (fun r => r.code == c && !r.used) = some lc →
        lc.expires_at < now →
        st.loginCodes.countP (fun r => r.code == c) ≤ 1 →
        loginByOidcCode (some c) now st
          = (.err "Login code expired", { st with loginCodes := trashUnused c st.loginCodes })
        ∧ loginByOidcCode (some c) now { st with loginCodes := trashUnused c st.loginCodes }
          = (.err "Invalid or expired login code",
             { st with loginCodes := trashUnused c st.loginCodes })) := by
  have htr : truthyS (some c) = true := by simp [truthyS, hc]
  refine ⟨?_, ?_⟩
  · intro hnone
    simp [loginByOidcCode, htr, hnone]
  · intro lc hfind hexp huniq
    refine ⟨by simp [loginByOidcCode, htr, hfind, hexp], ?_⟩
    have hnone := find?_none_after_erase c st.loginCodes huniq
    simp [loginByOidcCode, htr, hnone]

/-- Witness for `used_code_like_not_found`: a table holding only an
already-used copy of the code. -/
theorem used_code_like_not_found_witness :
    ((DbState.mk [] [⟨"c1", 1, 0, true⟩]).loginCodes.find?
        (fun r => r.code == "c1" && !r.used) = none →
      loginByOidcCode (some "c1") 100 ⟨[], [⟨"c1", 1, 0, true⟩]⟩
        = (.err "Invalid or expired login code", ⟨[], [⟨"c1", 1, 0, true⟩]⟩))
    ∧ (∀ lc, (DbState.mk [] [⟨"c1", 1, 0, true⟩]).loginCodes.find?
          (fun r => r.code == "c1" && !r.used) = some lc →
        lc.expires_at < 100 →
        (DbState.mk [] [⟨"c1", 1, 0, true⟩]).loginCodes.countP
          (fun r => r.code == "c1") ≤ 1 →
        loginByOidcCode (some "c1") 100 ⟨[], [⟨"c1", 1, 0, true⟩]⟩
          = (.err "Login code expired",
             { DbState.mk [] [⟨"c1", 1, 0, true⟩] with
                loginCodes := trashUnused "c1" (DbState.mk [] [⟨"c1", 1, 0, true⟩]).loginCodes })
        ∧ loginByOidcCode (some "c1") 100
            { DbState.mk [] [⟨"c1", 1, 0, true⟩] with
                loginCodes := trashUnused "c1" (DbState.mk [] [⟨"c1", 1, 0, true⟩]).loginCodes }
          = (.err "Invalid or expired login code",
             { DbState.mk [] [⟨"c1", 1, 0, true⟩] with
                loginCodes := trashUnused "c1" (DbState.mk [] [⟨"c1", 1, 0, true⟩]).loginCodes })) :=
  used_code_like_not_found "c1" 100 ⟨[], [⟨"c1", 1, 0, true⟩]⟩ (by decide)

/-! ## OIDC router: pending auth sessions and the callback flow -/

/-- A pending OIDC handshake stored in the in-memory `authSessions` map. -/
structure PendingSession where
  codeVerifier : String
  nonce : String
  redirectUri : String
  expiresAt : Int
deriving DecidableEq, Repr

/-- `authSessions.get(state)` on the in-memory map (unique keys). -/
def mapGet (k : String) (m : List (String × PendingSession)) : Option PendingSession :=
  (m.find? (fun kv => kv.1 == k)).map (fun kv => kv.2)

/-- `authSessions.delete(state)` on the in-memory map. -/
def mapDelete (k : String) (m : List (String × PendingSession)) :
    List (String × PendingSession) :=
  m.filter (fun kv => kv.1 != k)

/-- The periodic cleanup interval body: drop every session whose `expiresAt`
is strictly in the past. -/
def sweepExpired (now : Int) (m : List (String × PendingSession)) :
    List (String × PendingSession) :=
  m.filter (fun kv => !(kv.2.expiresAt < now))

/-- The query string of `GET /auth/oidc/entra/callback`. -/
structure CallbackQuery where
  code : Option String
  state : Option String
  error : Option String
  error_description : Option String
deriving DecidableEq, Repr

/-- The ID-token claims produced by a successful token exchange. -/
structure Claims where
  oid : Option String
  sub : Option String
  preferred_username : Option String
  email : Option String
  name : Option String
  groups : Option (List String)
deriving DecidableEq, Repr

/-- The environment of one callback request: the current time, the outcome of
provider discovery plus code exchange (`none` models a thrown provider/network
error, handled by the catch-all), and the random values drawn during the
request (login code, username suffix, fresh user row id). -/
structure CallbackEnv where
  now : Int
  tokenExchange : Option Claims
  newLoginCode : String
  randSuffix : String
  newUserId : Nat
deriving DecidableEq, Repr

/-- The state a callback request can read or write. -/
structure RouterState where
  authSessions : List (String × PendingSession)
  settings : SettingsStore
  users : List UserRow
  loginCodes : List LoginCodeRow
deriving DecidableEq, Repr

/-- The callback always answers with a redirect to `/dashboard`, carrying
either `?oidc_code=...` or `?oidc_error=...`. -/
inductive CallbackResult where
  | okRedirect : String → CallbackResult
  | errRedirect : String → CallbackResult
deriving DecidableEq, Repr

/-- Mint the one-time login code at the end of a successful callback:
a fresh row with a 5-minute expiry, `used = false`, then redirect with it. -/
def mintLoginCode (env : CallbackEnv) (uid : Nat) (s : RouterState) :
    CallbackResult × RouterState :=
  (.okRedirect env.newLoginCode,
   { s with loginCodes := s.loginCodes ++ [⟨env.newLoginCode, uid, env.now + 5 * 60 * 1000, false⟩] })

/-- The callback flow after the state token has been consumed: expiry check,
re-check of `enabled`, token exchange, group authorization, user lookup by
`entra_oid`, auto-provisioning or in-place update, then code minting.
A missing email in the create path crashes `email.split("@")` and lands in
the catch-all, like a failed exchange. -/
def callbackAfterSession (env : CallbackEnv) (session : PendingSession)
    (s1 : RouterState) : CallbackResult × RouterState :=
  if session.expiresAt < env.now then
    (.errRedirect "Authentication session expired", s1)
  else
    let settings := getOidcSettingsRouter s1.settings
    if !settings.enabled then
      (.errRedirect "Entra ID SSO is not enabled", s1)
    else
      match env.tokenExchange with
      | none => (.errRedirect "Authentication failed. Please try again.", s1)
      | some claims =>
        let oid := jsOrOS claims.oid claims.sub
        let email := jsOrOS claims.preferred_username claims.email
        let userGroups := claims.groups.getD []
        if (settings.allowedGroups.length != 0) &&
            !(settings.allowedGroups.any (fun g => userGroups.contains g)) then
          (.errRedirect "You are not authorized to access this application. Please contact your administrator.", s1)
        else
          let found : Option UserRow := match oid with
            | none => none
            | some o => s1.users.find? (fun (u : UserRow) => u.entra_oid == some o && u.active)
          match found with
          | none =>
            if !settings.autoCreateUsers then
              (.errRedirect "Your account has not been provisioned. Please contact your administrator.", s1)
            else
              match email with
              | none => (.errRedirect "Authentication failed. Please try again.", s1)
              | some em =>
                let base := (em.splitOn "@").headD ""
                let uname := if (s1.users.find? (fun (u : UserRow) => u.username == base)).isSome
                  then base ++ "_" ++ env.randSuffix else base
                let newUser : UserRow :=
                  ⟨env.newUserId, uname, email, claims.name, some settings.defaultRole,
                   oid, none, true, some env.now⟩
                let s2 := { s1 with users := s1.users ++ [newUser] }
                mintLoginCode env env.newUserId s2
          | some user =>
            let users2 := updateFirst (fun (u : UserRow) => u.entra_oid == oid && u.active)
              (fun (u : UserRow) => { u with
                email := email
                display_name := claims.name
                last_login := some env.now }) s1.users
            let s2 := { s1 with users := users2 }
            mintLoginCode env user.id s2

/-- `GET /auth/oidc/entra/callback`: provider error passthrough, state
validation, one-time consumption of the pending session, then the rest of the
flow. -/
def handleCallback (q : CallbackQuery) (env : CallbackEnv) (s : RouterState) :
    CallbackResult × RouterState :=
  if truthyS q.error then
    (.errRedirect (jsOrS q.error_description (q.error.getD "")), s)
  else if !truthyS q.state then
    (.errRedirect "Invalid or expired authentication session", s)
  else
    match mapGet (q.state.getD "") s.authSessions with
    | none => (.errRedirect "Invalid or expired authentication session", s)
    | some session =>
      callbackAfterSession env session
        { s with authSessions := mapDelete (q.state.getD "") s.authSessions }

/-- Whatever happens after the consume, `authSessions` is not touched again. -/
theorem callbackAfterSession_sessions (env : CallbackEnv) (session : PendingSession)
    (s1 : RouterState) :
    ((callbackAfterSession env session s1).2).authSessions = s1.authSessions := by
  unfold callbackAfterSession mintLoginCode
  repeat first
  | rfl
  | split
  | dsimp only

/-- The flow after the consume never answers with the invalid-session error. -/
theorem callbackAfterSession_not_invalid (env : CallbackEnv) (session : PendingSession)
    (s1 : RouterState) :
    (callbackAfterSession env session s1).1
      ≠ .errRedirect "Invalid or expired authentication session" := by
  unfold callbackAfterSession mintLoginCode
  repeat first
  | simp
  | split
  | dsimp only

/-- Deleting a key from the session map makes its lookup return `none`. -/
theorem mapGet_delete_none (k : String) (m : List (String × PendingSession)) :
    mapGet k (mapDelete k m) = none := by
  have h : (m.filter (fun kv => kv.1 != k)).find? (fun kv => kv.1 == k) = none := by
    rw [List.find?_eq_none]
    intro x hx
    have := (List.mem_filter.mp hx).2
    simp_all
  simp [mapGet, mapDelete, h]

/-! ## Claim C2 -/

/-- Claim C2: a registered state token is consumed by the first callback that
presents it — the handler proceeds with the stored pending session, the entry
is removed from the registry, and the response is not the invalid-session
rejection — and any later callback presenting the same token (the registry no
longer holds it) is rejected with the invalid/expired-session error and
changes nothing. -/
theorem state_token_single_use (q : CallbackQuery) (env : CallbackEnv) (s : RouterState)
    (tok : String) (sess : PendingSession)
    (herr : truthyS q.error = false)
    (hstate : q.state = some tok) (htok : tok ≠ "")
    (hget : mapGet tok s.authSessions = some sess) :
    handleCallback q env s
      = callbackAfterSession env sess { s with authSessions := mapDelete tok s.authSessions }
    ∧ ((handleCallback q env s).2).authSessions = mapDelete tok s.authSessions
    ∧ (handleCallback q env s).1 ≠ .errRedirect "Invalid or expired authentication session"
    ∧ mapGet tok (mapDelete tok s.authSessions) = none
    ∧ (∀ q2 env2 s2, q2.state = some tok → truthyS q2.error = false →
        mapGet tok s2.authSessions = none →
        handleCallback q2 env2 s2
          = (.errRedirect "Invalid or expired authentication session", s2)) := by
  have htr : truthyS (some tok) = true := by simp [truthyS, htok]
  have h1 : handleCallback q env s
      = callbackAfterSession env sess { s with authSessions := mapDelete tok s.authSessions } := by
    unfold handleCallback
    rw [hstate]
    simp [herr, htr, hget]
  refine ⟨h1, ?_, ?_, mapGet_delete_none tok s.authSessions, ?_⟩
  · rw [h1, callbackAfterSession_sessions]
  · rw [h1]
    exact callbackAfterSession_not_invalid _ _ _
  · intro q2 env2 s2 h2 h3 h4
    unfold handleCallback
    rw [h2]
    simp [h3, htr, h4]

/-- Witness for `state_token_single_use`: one registered state token consumed
on a fresh unconfigured instance. -/
theorem state_token_single_use_witness :
    handleCallback ⟨none, some "s", none, none⟩ ⟨0, none, "x", "r", 1⟩
        ⟨[("s", ⟨"v", "n", "u", 100⟩)], ⟨none, none, none, none, none, none, none⟩, [], []⟩
      = callbackAfterSession ⟨0, none, "x", "r", 1⟩ ⟨"v", "n", "u", 100⟩
          { RouterState.mk [("s", ⟨"v", "n", "u", 100⟩)]
              ⟨none, none, none, none, none, none, none⟩ [] [] with
            authSessions := mapDelete "s" [("s", ⟨"v", "n", "u", 100⟩)] }
    ∧ ((handleCallback ⟨none, some "s", none, none⟩ ⟨0, none, "x", "r", 1⟩
        ⟨[("s", ⟨"v", "n", "u", 100⟩)], ⟨none, none, none, none, none, none, none⟩, [], []⟩).2).authSessions
      = mapDelete "s" [("s", ⟨"v", "n", "u", 100⟩)]
    ∧ (handleCallback ⟨none, some "s", none, none⟩ ⟨0, none, "x", "r", 1⟩
        ⟨[("s", ⟨"v", "n", "u", 100⟩)], ⟨none, none, none, none, none, none, none⟩, [], []⟩).1
      ≠ .errRedirect "Invalid or expired authentication session"
    ∧ mapGet "s" (mapDelete "s" [("s", ⟨"v", "n", "u", 100⟩)]) = none
    ∧ (∀ q2 env2 s2, q2.state = some "s" → truthyS q2.error = false →
        mapGet "s" s2.authSessions = none →
        handleCallback q2 env2 s2
          = (.errRedirect "Invalid or expired authentication session", s2)) :=
  state_token_single_use ⟨none, some "s", none, none⟩ ⟨0, none, "x", "r", 1⟩
    ⟨[("s", ⟨"v", "n", "u", 100⟩)], ⟨none, none, none, none, none, none, none⟩, [], []⟩
    "s" ⟨"v", "n", "u", 100⟩ (by decide) rfl (by decide) (by decide)

/-! ## Claim C7 -/

/-- Claim C7: when the configured allowed-groups list is non-empty and shares
no element with the claimed groups, the callback ends in the not-authorized
redirect, and neither the user table nor the login-code table is changed (only
the consumed pending session is gone). -/
theorem group_denial_no_side_effects (q : CallbackQuery) (env : CallbackEnv)
    (s : RouterState) (tok : String) (sess : PendingSession) (claims : Claims)
    (herr : truthyS q.error = false) (hstate : q.state = some tok) (htok : tok ≠ "")
    (hget : mapGet tok s.authSessions = some sess)
    (hexp : ¬ sess.expiresAt < env.now)
    (hen : (getOidcSettingsRouter s.settings).enabled = true)
    (hex : env.tokenExchange = some claims)
    (hne : ((getOidcSettingsRouter s.settings).allowedGroups.length != 0) = true)
    (hdisj : ((getOidcSettingsRouter s.settings).allowedGroups.any
        (fun g => (claims.groups.getD []).contains g)) = false) :
    handleCallback q env s
      = (.errRedirect "You are not authorized to access this application. Please contact your administrator.",
         { s with authSessions := mapDelete tok s.authSessions })
    ∧ ((handleCallback q env s).2).users = s.users
    ∧ ((handleCallback q env s).2).loginCodes = s.loginCodes := by
  have htr : truthyS (some tok) = true := by simp [truthyS, htok]
  have h1 : handleCallback q env s
      = callbackAfterSession env sess { s with authSessions := mapDelete tok s.authSessions } := by
    unfold handleCallback
    rw [hstate]
    simp [herr, htr, hget]
  have hcond : (((getOidcSettingsRouter s.settings).allowedGroups.length != 0) &&
      !((getOidcSettingsRouter s.settings).allowedGroups.any
        (fun g => (claims.groups.getD []).contains g))) = true := by
    rw [hne, hdisj]
    rfl
  have h2 : callbackAfterSession env sess { s with authSessions := mapDelete tok s.authSessions }
      = (.errRedirect "You are not authorized to access this application. Please contact your administrator.",
         { s with authSessions := mapDelete tok s.authSessions }) := by
    unfold callbackAfterSession
    rw [if_neg hexp]
    dsimp only
    rw [hen]
    simp only [Bool.not_true, Bool.false_eq_true, if_false]
    rw [hex]
    dsimp only
    rw [if_pos hcond]
  rw [h1, h2]
  exact ⟨rfl, rfl, rfl⟩

/-- The C7 witness scenario: allowed groups `["G1"]`, claimed groups `["G2"]`,
SSO enabled, a valid unexpired pending session. -/
def c7q : CallbackQuery := ⟨some "ac", some "s", none, none⟩

/-- The C7 witness claims: subject in group `G2` only. -/
def c7claims : Claims := ⟨some "o1", none, some "a\x40b", none, none, some ["G2"]⟩

/-- The C7 witness environment: successful token exchange. -/
def c7env : CallbackEnv := ⟨0, some c7claims, "x", "r", 1⟩

/-- The C7 witness pending session. -/
def c7sess : PendingSession := ⟨"v", "n", "u", 100⟩

/-- The C7 witness settings: enabled, allowed groups `["G1"]`. -/
def c7settings : SettingsStore :=
  ⟨some true, some "t", some "c", some "sec", some ["G1"], none, none⟩

/-- The C7 witness server state. -/
def c7state : RouterState := ⟨[("s", c7sess)], c7settings, [], []⟩

/-- Witness for `group_denial_no_side_effects` at the C7 scenario. -/
theorem group_denial_no_side_effects_witness :
    handleCallback c7q c7env c7state
      = (.errRedirect "You are not authorized to access this application. Please contact your administrator.",
         { c7state with authSessions := mapDelete "s" c7state.authSessions })
    ∧ ((handleCallback c7q c7env c7state).2).users = c7state.users
    ∧ ((handleCallback c7q c7env c7state).2).loginCodes = c7state.loginCodes := by
  exact group_denial_no_side_effects c7q c7env c7state "s" c7sess c7claims
    (by decide) (by decide) (by decide) (by decide) (by decide) (by decide)
    (by decide) (by decide) (by decide)
/-! ## Claim C8 -/

/-- Claim C8 counterexample: a pending session whose `expiresAt` equals the
current time (so it is at-or-before now) is NOT rejected as expired — the
strict comparison `session.expiresAt < Date.now()` lets it through, and the
flow proceeds to the next check (here: SSO disabled). -/
theorem expiry_boundary_not_rejected :
    (mapGet "s" (RouterState.authSessions
        ⟨[("s", ⟨"v", "n", "u", 100⟩)], ⟨none, none, none, none, none, none, none⟩, [], []⟩)).map
      PendingSession.expiresAt = some 100
    ∧ ((100 : Int) ≤ 100)
    ∧ (handleCallback ⟨none, some "s", none, none⟩ ⟨100, none, "x", "r", 1⟩
        ⟨[("s", ⟨"v", "n", "u", 100⟩)], ⟨none, none, none, none, none, none, none⟩, [], []⟩).1
      = .errRedirect "Entra ID SSO is not enabled"
    ∧ (handleCallback ⟨none, some "s", none, none⟩ ⟨100, none, "x", "r", 1⟩
        ⟨[("s", ⟨"v", "n", "u", 100⟩)], ⟨none, none, none, none, none, none, none⟩, [], []⟩).1
      ≠ .errRedirect "Authentication session expired" := by
  refine ⟨by decide, by decide, by decide, by decide⟩

/-- Claim C8 (amended): a pending session whose `expiresAt` is strictly
before the current time is rejected by the callback with the session-expired
error even though the sweep has not removed it; at exactly `expiresAt` the
session is still accepted. -/
theorem session_expired_strict (q : CallbackQuery) (env : CallbackEnv) (s : RouterState)
    (tok : String) (sess : PendingSession)
    (herr : truthyS q.error = false) (hstate : q.state = some tok) (htok : tok ≠ "")
    (hget : mapGet tok s.authSessions = some sess)
    (hexp : sess.expiresAt < env.now) :
    handleCallback q env s
      = (.errRedirect "Authentication session expired",
         { s with authSessions := mapDelete tok s.authSessions }) := by
  have htr : truthyS (some tok) = true := by simp [truthyS, htok]
  have h1 : handleCallback q env s
      = callbackAfterSession env sess { s with authSessions := mapDelete tok s.authSessions } := by
    unfold handleCallback
    rw [hstate]
    simp [herr, htr, hget]
  rw [h1]
  unfold callbackAfterSession
  rw [if_pos hexp]

/-- Witness for `session_expired_strict`: a session one tick past expiry. -/
theorem session_expired_strict_witness :
    handleCallback ⟨none, some "s", none, none⟩ ⟨101, none, "x", "r", 1⟩
        ⟨[("s", ⟨"v", "n", "u", 100⟩)], ⟨none, none, none, none, none, none, none⟩, [], []⟩
      = (.errRedirect "Authentication session expired",
         { RouterState.mk [("s", ⟨"v", "n", "u", 100⟩)]
             ⟨none, none, none, none, none, none, none⟩ [] [] with
           authSessions := mapDelete "s" [("s", ⟨"v", "n", "u", 100⟩)] }) :=
  session_expired_strict ⟨none, some "s", none, none⟩ ⟨101, none, "x", "r", 1⟩
    ⟨[("s", ⟨"v", "n", "u", 100⟩)], ⟨none, none, none, none, none, none, none⟩, [], []⟩
    "s" ⟨"v", "n", "u", 100⟩ (by decide) rfl (by decide) (by decide) (by decide)

/-! ## Claim C10: interleaved exchanges

The socket handler `loginByOidcCode` suspends at each `await`: after the
`R.findOne` of the code row, after the `R.store`/`R.trash` write, and after
the `R.findOne` of the user.  One `exStep` is the synchronous code between two
suspension points, so an interleaving of two concurrent exchanges is a
schedule of `exStep`s over the shared database.  The state-token consume in
the callback handler (`has`/`get`/`delete`) has no `await` inside, so it is a
single atomic step and is modelled by `handleCallback` directly. -/

/-- The program counter of one in-flight `loginByOidcCode` exchange:
before the code lookup, holding the fetched row, after the mark-used write
(remembering the owning user id from the local row), or finished. -/
inductive ExPC where
  | start : ExPC
  | fetched : Option LoginCodeRow → ExPC
  | marked : Nat → ExPC
  | finished : LoginResult → ExPC
deriving DecidableEq, Repr

/-- One atomic step of an exchange of code `c` against the shared database. -/
def exStep (c : String) (now : Int) : ExPC × DbState → ExPC × DbState
  | (.start, st) =>
    (.fetched (st.loginCodes.find? (fun lc => lc.code == c && !lc.used)), st)
  | (.fetched none, st) => (.finished (.err "Invalid or expired login code"), st)
  | (.fetched (some lc), st) =>
    if lc.expires_at < now then
      (.finished (.err "Login code expired"), { st with loginCodes := trashUnused c st.loginCodes })
    else
      (.marked lc.user_id, { st with loginCodes := markUsed c st.loginCodes })
  | (.marked uid, st) =>
    match st.users.find? (fun u => u.id == uid && u.active) with
    | none => (.finished (.err "User not found or inactive"), st)
    | some u => (.finished (.ok u.id u.role), st)
  | (.finished r, st) => (.finished r, st)

/-- Run a schedule over two concurrent exchanges of the same code:
`false` steps the first caller, `true` steps the second. -/
def runSched (c : String) (now : Int) :
    List Bool → ExPC × ExPC × DbState → ExPC × ExPC × DbState
  | [], cfg => cfg
  | b :: rest, (ta, tb, st) =>
    if b then
      let r := exStep c now (tb, st)
      runSched c now rest (ta, r.1, r.2)
    else
      let r := exStep c now (ta, st)
      runSched c now rest (r.1, tb, r.2)

/-- Did this exchange finish with a success callback? -/
def exSucceeded : ExPC → Bool
  | .finished (.ok _ _) => true
  | _ => false

/-- The C10 scenario: one active admin owning one valid unexpired code. -/
def c10user : UserRow := ⟨1, "alice", none, none, some "admin", none, none, true, none⟩

/-- The C10 initial database. -/
def c10st : DbState := ⟨[c10user], [⟨"c1", 1, 1000, false⟩]⟩

/-- The C10 database after one successful exchange of `"c1"`. -/
def c10st2 : DbState := ⟨[c10user], [⟨"c1", 1, 1000, true⟩]⟩

/-- Claim C10 counterexample: under the schedule A,B,A,A,B,B — both callers
run their unused-row lookup before either performs the mark-used write — two
concurrent exchanges of the same valid login code BOTH finish successfully,
so "exactly one caller observes a successful exchange" fails for login codes. -/
theorem interleaved_exchange_double_success :
    exSucceeded (runSched "c1" 0 [false, true, false, false, true, true]
      (.start, .start, c10st)).1 = true
    ∧ exSucceeded (runSched "c1" 0 [false, true, false, false, true, true]
      (.start, .start, c10st)).2.1 = true :=
  ⟨by decide, by decide⟩

/-- Claim C10 (amended): exclusivity holds whenever the operations do not
interleave.  A login-code exchange that completed successfully leaves a state
in which any later exchange of the same code is rejected as invalid; and the
state-token consume is a single atomic step, so once a token is absent from
the registry every callback presenting it — however it raced in — is rejected
with the invalid-session error and changes nothing.  (Interleaved login-code
exchanges can still both succeed, per the counterexample.) -/
theorem consume_exclusivity_amended (c : String) (now : Int) (st st2 : DbState)
    (uid : Nat) (role : Option String) (hc : c ≠ "")
    (huniq : st.loginCodes.countP (fun r => r.code == c) ≤ 1)
    (hok : loginByOidcCode (some c) now st = (.ok uid role, st2)) :
    loginByOidcCode (some c) now st2 = (.err "Invalid or expired login code", st2)
    ∧ (∀ q env s (tok : String), q.state = some tok → tok ≠ "" →
        truthyS q.error = false → mapGet tok s.authSessions = none →
        handleCallback q env s
          = (.errRedirect "Invalid or expired authentication session", s)) := by
  have htr : truthyS (some c) = true := by simp [truthyS, hc]
  have hnone := find?_none_after_mark c st.loginCodes huniq
  refine ⟨?_, ?_⟩
  · cases hfind : st.loginCodes.find? (fun lc => lc.code == c && !lc.used) with
    | none =>
      have heval : loginByOidcCode (some c) now st
          = (.err "Invalid or expired login code", st) := by
        simp [loginByOidcCode, htr, hfind]
      rw [heval] at hok
      exact absurd hok (by simp)
    | some lc =>
      by_cases hexp : lc.expires_at < now
      · have heval : loginByOidcCode (some c) now st
            = (.err "Login code expired", { st with loginCodes := trashUnused c st.loginCodes }) := by
          simp [loginByOidcCode, htr, hfind, hexp]
        rw [heval] at hok
        exact absurd hok (by simp)
      · cases huser : st.users.find? (fun u => u.id == lc.user_id && u.active) with
        | none =>
          have heval : loginByOidcCode (some c) now st
              = (.err "User not found or inactive", { st with loginCodes := markUsed c st.loginCodes }) := by
            simp [loginByOidcCode, htr, hfind, hexp, huser]
          rw [heval] at hok
          exact absurd hok (by simp)
        | some u =>
          have heval : loginByOidcCode (some c) now st
              = (.ok u.id u.role, { st with loginCodes := markUsed c st.loginCodes }) := by
            simp [loginByOidcCode, htr, hfind, hexp, huser]
          rw [heval] at hok
          have hst2 : ({ st with loginCodes := markUsed c st.loginCodes } : DbState) = st2 :=
            congrArg Prod.snd hok
          rw [← hst2]
          simp [loginByOidcCode, htr, hnone]
  · intro q env s tok h1 h2 h3 h4
    have htr2 : truthyS (some tok) = true := by simp [truthyS, h2]
    unfold handleCallback
    rw [h1]
    simp [h3, htr2, h4]

/-- Witness for `consume_exclusivity_amended`: the C10 scenario, where the
first exchange succeeds and yields `c10st2`. -/
theorem consume_exclusivity_amended_witness :
    loginByOidcCode (some "c1") 0 c10st2 = (.err "Invalid or expired login code", c10st2)
    ∧ (∀ q env s (tok : String), q.state = some tok → tok ≠ "" →
        truthyS q.error = false → mapGet tok s.authSessions = none →
        handleCallback q env s
          = (.errRedirect "Invalid or expired authentication session", s)) :=
  consume_exclusivity_amended "c1" 0 c10st c10st2 1 (some "admin")
    (by decide) (by decide) (by decide)
